import Mathlib

/-!
Verification development for the nullpt.rs blog repository.

The repository consists of `next.config.js` (redirect table, site URL) and
MDX article documents carrying a frontmatter metadata header.  The
content-to-feed pipeline (Content Registry and Feed Generator) described in
the specification is not shipped under `src/`; it is modelled here from the
spec (each such definition's doc comment starts with `Modelled from the
spec:`).  The redirect table and the two article frontmatters are embedded
directly from the source files.
-/

set_option maxRecDepth 8192

namespace Nullpt

/-! ## Dates

Frontmatter dates in the source look like `Jan 12 2023` / `Feb 18 2019`.
A date is modelled as a year/month/day triple; `key` is a sort key that is
strictly monotone in the calendar order for in-range dates. -/

structure Date where
  year : Nat
  month : Nat
  day : Nat
  deriving Repr, DecidableEq

/-- Sort key of a date: lexicographic year/month/day packed into a `Nat`
(valid since `month ≤ 12 < 100` and `day ≤ 31 < 100`). -/
def Date.key (d : Date) : Nat :=
  d.year * 10000 + d.month * 100 + d.day

/-- A date is valid when month and day are in calendar range. -/
def Date.Valid (d : Date) : Prop :=
  1 ≤ d.month ∧ d.month ≤ 12 ∧ 1 ≤ d.day ∧ d.day ≤ 31

instance (d : Date) : Decidable d.Valid := by
  unfold Date.Valid; infer_instance

/-! ### Decimal digits as characters -/

/-- The character for a decimal digit (`0 ↦ '0'`, …, `9 ↦ '9'`). -/
def digitChar (n : Nat) : Char := Char.ofNat (48 + n)

/-- The decimal digit denoted by a character (`'0' ↦ 0`, …). -/
def charDigit (c : Char) : Nat := c.toNat - 48

/-- Big-endian character rendering of a natural number, `0 ↦ "0"`. -/
def natToChars (n : Nat) : List Char :=
  if n = 0 then ['0'] else ((Nat.digits 10 n).map digitChar).reverse

/-- Pad a character list on the left with `'0'` up to width `k`. -/
def padLeft (k : Nat) (cs : List Char) : List Char :=
  List.replicate (k - cs.length) '0' ++ cs

/-- Parse a non-empty all-digit character list as a natural number
(big-endian decimal); otherwise `none`. -/
def charsToNat? (cs : List Char) : Option Nat :=
  if cs ≠ [] ∧ cs.all (fun c => c.isDigit) then
    some (Nat.ofDigits 10 ((cs.map charDigit).reverse))
  else none

/-- Split a character list on a separator character; a faithful model of
splitting a string on a delimiter. -/
def splitOnCharAux (c : Char) : List Char → List Char → List (List Char)
  | [], acc => [acc.reverse]
  | x :: xs, acc =>
    if x = c then acc.reverse :: splitOnCharAux c xs []
    else splitOnCharAux c xs (x :: acc)

/-- Split a character list on every occurrence of `c`. -/
def splitOnChar (c : Char) (l : List Char) : List (List Char) :=
  splitOnCharAux c l []

/-! ### Month names, as used in the frontmatter of the repository -/

/-- English three-letter month name used by the frontmatter dates. -/
def monthName : Nat → String
  | 1 => "Jan" | 2 => "Feb" | 3 => "Mar" | 4 => "Apr"
  | 5 => "May" | 6 => "Jun" | 7 => "Jul" | 8 => "Aug"
  | 9 => "Sep" | 10 => "Oct" | 11 => "Nov" | 12 => "Dec"
  | _ => ""

/-- The table of three-letter month names and their month numbers. -/
def monthTable : List (List Char × Nat) :=
  [ ("Jan".data, 1), ("Feb".data, 2), ("Mar".data, 3), ("Apr".data, 4),
    ("May".data, 5), ("Jun".data, 6), ("Jul".data, 7), ("Aug".data, 8),
    ("Sep".data, 9), ("Oct".data, 10), ("Nov".data, 11), ("Dec".data, 12) ]

/-- Month number of a three-letter month name, as a character list. -/
def monthNum? (cs : List Char) : Option Nat :=
  (monthTable.find? (fun p => p.1 == cs)).map (fun p => p.2)

/-- Modelled from the spec: parse a frontmatter date string such as
`Jan 12 2023` (the format used by both article documents) into a `Date`,
validating that the day is in calendar range; the month is validated by the
month-name table.  `none` models a date that does not parse to a valid
timestamp. -/
def parseDate (s : String) : Option Date :=
  match splitOnChar ' ' s.data with
  | [mm, dd, yy] =>
    match monthNum? mm, charsToNat? dd, charsToNat? yy with
    | some month, some day, some year =>
      if 1 ≤ day ∧ day ≤ 31 then some ⟨year, month, day⟩ else none
    | _, _, _ => none
  | _ => none

/-! ## Data model: articles, documents, registry -/

/-- Modelled from the spec: one published post, with the six metadata
fields carried by every frontmatter header plus the opaque body. -/
structure Article where
  slug : String
  date : Date
  author : String
  name : String
  excerpt : String
  keywords : String
  body : String
  deriving Repr, DecidableEq

/-- Modelled from the spec: a raw content document, already split by the
external markup parser into a frontmatter key/value block and a body
(the spec treats markup parsing as an external capability). -/
structure RawDoc where
  fields : List (String × String)
  body : String
  deriving Repr, DecidableEq

/-- Look up a frontmatter field by key. -/
def RawDoc.getField (d : RawDoc) (k : String) : Option String :=
  (d.fields.find? (fun kv => kv.1 == k)).map (fun kv => kv.2)

/-- Modelled from the spec: the build failure for a malformed metadata
block (missing required field, invalid date, empty or duplicate slug). -/
inductive ParseError where
  | missingField (key : String)
  | emptySlug
  | invalidDate (s : String)
  | duplicateSlug (slug : String)
  deriving Repr, DecidableEq

/-- Modelled from the spec: validate one document's metadata block and
produce an `Article`: all six required fields present, slug non-empty,
date parses to a valid timestamp. -/
def parseArticle (d : RawDoc) : Except ParseError Article :=
  match d.getField "slug", d.getField "date", d.getField "author",
        d.getField "name", d.getField "excerpt", d.getField "keywords" with
  | some slug, some dateStr, some author, some name, some excerpt, some keywords =>
    if slug = "" then .error .emptySlug
    else
      match parseDate dateStr with
      | some date =>
        .ok { slug := slug, date := date, author := author, name := name,
              excerpt := excerpt, keywords := keywords, body := d.body }
      | none => .error (.invalidDate dateStr)
  | none, _, _, _, _, _ => .error (.missingField "slug")
  | _, none, _, _, _, _ => .error (.missingField "date")
  | _, _, none, _, _, _ => .error (.missingField "author")
  | _, _, _, none, _, _ => .error (.missingField "name")
  | _, _, _, _, none, _ => .error (.missingField "excerpt")
  | _, _, _, _, _, none => .error (.missingField "keywords")

/-- Modelled from the spec: process the documents in discovery order,
validating each and rejecting a slug already seen; any failure aborts the
whole build. -/
def buildArticles : List RawDoc → List String → Except ParseError (List Article)
  | [], _ => .ok []
  | d :: ds, seen =>
    match parseArticle d with
    | .error e => .error e
    | .ok a =>
      if a.slug ∈ seen then .error (.duplicateSlug a.slug)
      else
        match buildArticles ds (a.slug :: seen) with
        | .error e => .error e
        | .ok rest => .ok (a :: rest)

/-- Articles ordered with the newest date first: `dateGe x y` holds when
`x` is dated no earlier than `y`. -/
def dateGe (x y : Article) : Prop := y.date.key ≤ x.date.key

instance : DecidableRel dateGe := by
  unfold dateGe; infer_instance

instance : IsTotal Article dateGe :=
  ⟨fun x y => Nat.le_total y.date.key x.date.key⟩

instance : IsTrans Article dateGe :=
  ⟨fun _ _ _ h1 h2 => Nat.le_trans h2 h1⟩

/-- Modelled from the spec: stable sort by date descending (insertion
sort; ties keep discovery order). -/
def sortArticles (l : List Article) : List Article :=
  l.insertionSort dateGe

/-- Modelled from the spec: the registry, an ordered sequence of articles
sorted by date descending. -/
structure Registry where
  articles : List Article
  deriving Repr, DecidableEq

/-- The full ordered article sequence. -/
def Registry.listAll (r : Registry) : List Article := r.articles

/-- Look up an article by slug; `none` models "not found". -/
def Registry.get (r : Registry) (slug : String) : Option Article :=
  r.articles.find? (fun a => a.slug == slug)

/-- A registry is valid when every article's date is in calendar range
(guaranteed by registry validation). -/
def Registry.Valid (r : Registry) : Prop :=
  ∀ a ∈ r.articles, a.date.Valid

instance (r : Registry) : Decidable r.Valid :=
  List.decidableBAll _ r.articles

/-- Modelled from the spec: `buildRegistry` — enumerate the documents of
the content set in discovery order, validate each metadata block, fail on
any malformed block or duplicate slug (no partial registry), sort by date
descending with a stable sort. -/
def buildRegistry (docs : List RawDoc) : Except ParseError Registry :=
  match buildArticles docs [] with
  | .error e => .error e
  | .ok arts => .ok ⟨sortArticles arts⟩

/-! ## Redirect table, embedded from `next.config.js` -/

/-- One entry of the static redirect table in `next.config.js`. -/
structure Redirect where
  source : String
  destination : String
  permanent : Bool
  deriving Repr, DecidableEq

/-- The redirect table returned by `redirects()` in `next.config.js`,
in source order. -/
def redirects : List Redirect :=
  [ ⟨"/feed.json", "/api/feed.json", true⟩,
    ⟨"/feed.atom", "/api/feed.atom", true⟩,
    ⟨"/feed.rss", "/api/feed.rss", true⟩,
    ⟨"/reverse-engineering-malicious-bots",
      "https://old.nullpt.rs/reverse-engineering-malicious-bots", false⟩,
    ⟨"/having-fun-with-javascript-obfuscation",
      "https://old.nullpt.rs/having-fun-with-javascript-obfuscation", false⟩,
    ⟨"/dissecting-a-vm", "https://old.nullpt.rs/dissecting-a-vm", false⟩,
    ⟨"/how-do-i-make-a-bot", "https://old.nullpt.rs/how-do-i-make-a-bot", false⟩ ]

/-- The site URL configured in the `env` block of `next.config.js`. -/
def siteUrl : String := "https://nullpt.rs"

/-! ## Feed generator, modelled from the spec -/

/-- Modelled from the spec: the three supported feed formats. -/
inductive FeedFormat where
  | json
  | atom
  | rss
  deriving Repr, DecidableEq

/-- ISO 8601 character rendering of a date (`YYYY-MM-DD`), used for the
Atom and JSON formats. -/
def isoChars (d : Date) : List Char :=
  padLeft 4 (natToChars d.year) ++
    '-' :: (padLeft 2 (natToChars d.month) ++ '-' :: padLeft 2 (natToChars d.day))

/-- RFC 822 style character rendering of a date (`D Mon YYYY`), used for
the RSS format. -/
def rfcChars (d : Date) : List Char :=
  natToChars d.day ++ ' ' :: ((monthName d.month).data ++ ' ' :: padLeft 4 (natToChars d.year))

/-- Modelled from the spec: the format-specific timestamp encoding — RFC
822 for RSS, ISO 8601 for Atom and JSON. -/
def encodeDate : FeedFormat → Date → String
  | .rss, d => ⟨rfcChars d⟩
  | .atom, d => ⟨isoChars d⟩
  | .json, d => ⟨isoChars d⟩

/-- Decode a format-specific timestamp string back into a date, as a
standard feed parser for the format would. -/
def decodeDate (fmt : FeedFormat) (s : String) : Option Date :=
  match fmt with
  | .rss =>
    match splitOnChar ' ' s.data with
    | [dd, mm, yy] =>
      match charsToNat? dd, monthNum? mm, charsToNat? yy with
      | some day, some month, some year => some ⟨year, month, day⟩
      | _, _, _ => none
    | _ => none
  | _ =>
    match splitOnChar '-' s.data with
    | [yy, mm, dd] =>
      match charsToNat? yy, charsToNat? mm, charsToNat? dd with
      | some year, some month, some day => some ⟨year, month, day⟩
      | _, _, _ => none
    | _ => none

/-- Modelled from the spec: one feed item record — public URL derived from
the slug, title, summary, format-encoded publish date, author name, and
the slug as the item GUID. -/
structure FeedItem where
  url : String
  title : String
  summary : String
  pubDate : String
  authorName : String
  guid : String
  deriving Repr, DecidableEq

/-- Modelled from the spec: the feed document — the format's envelope
(site title and site URL) wrapping the item sequence. -/
structure FeedDoc where
  siteTitle : String
  feedUrl : String
  items : List FeedItem
  deriving Repr, DecidableEq

/-- Modelled from the spec: map one article to its feed item record. -/
def articleToItem (fmt : FeedFormat) (a : Article) : FeedItem :=
  { url := siteUrl ++ "/" ++ a.slug
    title := a.name
    summary := a.excerpt
    pubDate := encodeDate fmt a.date
    authorName := a.author
    guid := a.slug }

/-- Modelled from the spec: `generateFeed` — a pure function of the
registry snapshot and requested format, mapping the full ordered article
sequence to feed items inside the format's envelope.  It is total: it
never fails for any registry, and an empty registry yields an empty item
sequence. -/
def generateFeed (reg : Registry) (fmt : FeedFormat) : FeedDoc :=
  { siteTitle := "nullpt.rs"
    feedUrl := siteUrl
    items := reg.articles.map (articleToItem fmt) }

/-- Structural validity of a feed document: non-empty envelope metadata,
and every item has a non-empty GUID and URL and a date string that parses
in the document's format. -/
def structurallyValid (fmt : FeedFormat) (doc : FeedDoc) : Bool :=
  (doc.siteTitle != "") && (doc.feedUrl != "") &&
    doc.items.all (fun it =>
      (it.guid != "") && (it.url != "") && (decodeDate fmt it.pubDate).isSome)

/-- A standard feed parser, modelled at the document level: recover from
each item its identifier (the GUID, which carries the slug) and its
publication date, decoded from the format-specific encoding.  Fails if
any item's date string does not parse. -/
def parseFeed (fmt : FeedFormat) (doc : FeedDoc) : Option (List (String × Date)) :=
  doc.items.mapM (fun it => (decodeDate fmt it.pubDate).map (fun d => (it.guid, d)))

/-! ## The repository's two article documents

Frontmatter transcribed from
`src/posts/2023/01/devirtualizing-nike-vm/devirtualizing-nike-vm-2.mdx`
and the 2019 article document; bodies are opaque to the pipeline and are
elided. -/

/-- Frontmatter of `devirtualizing-nike-vm-2.mdx` (lines 1-8). -/
def nikeDoc : RawDoc :=
  { fields :=
      [ ("slug", "devirtualizing-nike-vm-2"),
        ("date", "Jan 12 2023"),
        ("author", "umasi"),
        ("name", "Devirtualizing Nike.com\x27s Bot Protection (Part 2)"),
        ("excerpt", "Last time, we went over performing string extraction on the VM, and scratched the surface of analyzing the execution itself. However, this leaves the significant problem of actually devirtualizing the bytecode. For instance, we mentioned that individual strings are difficult to extract in a static manner—as specific values of the instruction pointer are required—but this difficulty also applies to opcodes and registers. As the bytecode is a stream of numbers, it\x27s impossible to determine whether a number indicates a register, opcode, or constant without knowing what came before it."),
        ("keywords", "nike,kasada,virtualization,obfuscation,virtual machine,cybersecurity,browser fingerprinting") ]
    body := "" }

/-- Frontmatter of the 2019 article document (lines 1-8). -/
def tacklingDoc : RawDoc :=
  { fields :=
      [ ("slug", "tackling-javascript-client-side-security-pt-1"),
        ("date", "Feb 18 2019"),
        ("author", "veritas"),
        ("name", "Tackling JavaScript Client-side Security (Part 1)"),
        ("excerpt", "Jscrambler, a leader in JavaScript Client-side security makes claims to “Bullet-proof your Web Application in 2 minutes” but what have they done to make these claims? And does it really bulletproof your application?"),
        ("keywords", "jscrambler,reverse engineering,javascript,deobfuscation") ]
    body := "" }

/-- The repository's content set, in discovery order. -/
def nullptDocs : List RawDoc := [nikeDoc, tacklingDoc]

/-- The registry built from the repository's content set. -/
def nullptRegistry : Registry :=
  (buildRegistry nullptDocs).toOption.getD ⟨[]⟩

/-- A minimal valid document for the spec's three-article example. -/
def mkDoc (slug date : String) : RawDoc :=
  { fields :=
      [ ("slug", slug), ("date", date), ("author", "x"),
        ("name", "t"), ("excerpt", "e"), ("keywords", "k") ]
    body := "" }

/-- The spec's three-article example content set: slugs `a`, `b`, `c`
dated 2023-01-12, 2019-02-18, 2023-01-01. -/
def exampleDocs : List RawDoc :=
  [mkDoc "a" "Jan 12 2023", mkDoc "b" "Feb 18 2019", mkDoc "c" "Jan 1 2023"]

/-- The registry built from the example content set. -/
def exampleRegistry : Registry :=
  (buildRegistry exampleDocs).toOption.getD ⟨[]⟩

/-- A content set in which two documents carry the same slug. -/
def dupDocs : List RawDoc :=
  [mkDoc "a" "Jan 12 2023", mkDoc "a" "Feb 18 2019"]

/-! ## Lemmas: decimal character encoding -/

lemma charDigit_digitChar : ∀ d < 10, charDigit (digitChar d) = d := by decide

lemma isDigit_digitChar : ∀ d < 10, (digitChar d).isDigit = true := by decide

lemma isDigit_ne_dash {c : Char} (h : c.isDigit = true) : c ≠ '-' := by
  intro e; subst e; exact absurd h (by decide)

lemma isDigit_ne_space {c : Char} (h : c.isDigit = true) : c ≠ ' ' := by
  intro e; subst e; exact absurd h (by decide)

lemma all_isDigit_natToChars (n : Nat) : ∀ c ∈ natToChars n, c.isDigit = true := by
  intro c hc
  unfold natToChars at hc
  by_cases h : n = 0
  · simp [h] at hc; subst hc; decide
  · simp only [h, if_false, List.mem_reverse, List.mem_map] at hc
    obtain ⟨d, hd, rfl⟩ := hc
    exact isDigit_digitChar d (Nat.digits_lt_base (by norm_num) hd)

lemma all_isDigit_padLeft (k : Nat) (cs : List Char)
    (h : ∀ c ∈ cs, c.isDigit = true) : ∀ c ∈ padLeft k cs, c.isDigit = true := by
  intro c hc
  unfold padLeft at hc
  rcases List.mem_append.1 hc with hrep | hmem
  · rw [List.eq_of_mem_replicate hrep]; decide
  · exact h c hmem

lemma natToChars_ne_nil (n : Nat) : natToChars n ≠ [] := by
  unfold natToChars
  by_cases h : n = 0
  · simp [h]
  · simp only [h, if_false, ne_eq, List.reverse_eq_nil_iff, List.map_eq_nil_iff]
    exact Nat.digits_ne_nil_iff_ne_zero.2 h

lemma map_charDigit_digitChar (l : List Nat) (h : ∀ x ∈ l, x < 10) :
    l.map (fun x => charDigit (digitChar x)) = l := by
  induction l with
  | nil => rfl
  | cons x xs ih =>
    simp only [List.map_cons]
    rw [charDigit_digitChar x (h x (List.mem_cons_self x xs)),
      ih (fun y hy => h y (List.mem_cons_of_mem x hy))]

lemma ofDigits_natToChars (n : Nat) :
    Nat.ofDigits 10 (((natToChars n).map charDigit).reverse) = n := by
  unfold natToChars
  by_cases h : n = 0
  · subst h; decide
  · simp only [h, if_false]
    rw [List.map_reverse, List.reverse_reverse, List.map_map]
    have : (Nat.digits 10 n).map (charDigit ∘ digitChar) = Nat.digits 10 n :=
      map_charDigit_digitChar _ (fun x hx => Nat.digits_lt_base (by norm_num) hx)
    rw [this, Nat.ofDigits_digits]

lemma charsToNat?_natToChars (n : Nat) : charsToNat? (natToChars n) = some n := by
  unfold charsToNat?
  rw [if_pos ⟨natToChars_ne_nil n, by
    rw [List.all_eq_true]; exact fun c hc => all_isDigit_natToChars n c hc⟩]
  rw [ofDigits_natToChars]

lemma ofDigits_replicate_zero (m : Nat) :
    Nat.ofDigits 10 (List.replicate m (0 : Nat)) = 0 := by
  induction m with
  | zero => rfl
  | succ k ih => simp [List.replicate_succ, Nat.ofDigits_cons, ih]

lemma charsToNat?_padLeft (k n : Nat) :
    charsToNat? (padLeft k (natToChars n)) = some n := by
  unfold charsToNat? padLeft
  rw [if_pos ?side]
  case side =>
    constructor
    · intro h
      exact natToChars_ne_nil n (List.append_eq_nil.1 h).2
    · rw [List.all_eq_true]
      exact all_isDigit_padLeft k _ (all_isDigit_natToChars n)
  have h0 : charDigit '0' = 0 := by decide
  rw [List.map_append, List.map_replicate, h0, List.reverse_append,
    List.reverse_replicate, Nat.ofDigits_append, ofDigits_natToChars,
    ofDigits_replicate_zero, Nat.mul_zero, Nat.add_zero]

/-! ## Lemmas: splitting on a separator character -/

lemma splitOnCharAux_no_sep (c : Char) (a : List Char) :
    ∀ acc, (∀ x ∈ a, x ≠ c) → splitOnCharAux c a acc = [acc.reverse ++ a] := by
  induction a with
  | nil => intro acc _; simp [splitOnCharAux]
  | cons x xs ih =>
    intro acc h
    have hx : x ≠ c := h x (List.mem_cons_self x xs)
    simp only [splitOnCharAux, if_neg hx]
    rw [ih (x :: acc) (fun y hy => h y (List.mem_cons_of_mem x hy))]
    simp

lemma splitOnCharAux_sep (c : Char) (a rest : List Char) :
    ∀ acc, (∀ x ∈ a, x ≠ c) →
      splitOnCharAux c (a ++ c :: rest) acc = (acc.reverse ++ a) :: splitOnChar c rest := by
  induction a with
  | nil => intro acc _; simp [splitOnCharAux, splitOnChar]
  | cons x xs ih =>
    intro acc h
    have hx : x ≠ c := h x (List.mem_cons_self x xs)
    simp only [List.cons_append, splitOnCharAux, if_neg hx, List.append_eq]
    rw [ih (x :: acc) (fun y hy => h y (List.mem_cons_of_mem x hy))]
    simp

lemma splitOnChar_three (c : Char) (a b d : List Char)
    (ha : ∀ x ∈ a, x ≠ c) (hb : ∀ x ∈ b, x ≠ c) (hd : ∀ x ∈ d, x ≠ c) :
    splitOnChar c (a ++ c :: (b ++ c :: d)) = [a, b, d] := by
  unfold splitOnChar
  rw [splitOnCharAux_sep c a _ [] ha]
  unfold splitOnChar
  rw [splitOnCharAux_sep c b _ [] hb]
  unfold splitOnChar
  rw [splitOnCharAux_no_sep c d [] hd]
  simp

/-! ## Lemmas: date encode/decode round trip -/

lemma month_roundtrip : ∀ m, m < 13 → 1 ≤ m →
    monthNum? ((monthName m).data) = some m := by decide

lemma month_no_space : ∀ m, m < 13 → 1 ≤ m →
    ∀ c ∈ (monthName m).data, c ≠ ' ' := by decide

lemma decodeDate_encodeDate (fmt : FeedFormat) (d : Date) (hv : d.Valid) :
    decodeDate fmt (encodeDate fmt d) = some d := by
  obtain ⟨hm1, hm2, _, _⟩ := hv
  have hiso : decodeDate FeedFormat.atom (encodeDate FeedFormat.atom d) = some d := by
    show decodeDate FeedFormat.atom ⟨isoChars d⟩ = some d
    unfold decodeDate isoChars
    have hsplit := splitOnChar_three '-'
      (padLeft 4 (natToChars d.year)) (padLeft 2 (natToChars d.month))
      (padLeft 2 (natToChars d.day))
      (fun x hx => isDigit_ne_dash (all_isDigit_padLeft _ _ (all_isDigit_natToChars _) x hx))
      (fun x hx => isDigit_ne_dash (all_isDigit_padLeft _ _ (all_isDigit_natToChars _) x hx))
      (fun x hx => isDigit_ne_dash (all_isDigit_padLeft _ _ (all_isDigit_natToChars _) x hx))
    simp only [hsplit, charsToNat?_padLeft]
  cases fmt with
  | atom => exact hiso
  | json => exact hiso
  | rss =>
    show decodeDate FeedFormat.rss ⟨rfcChars d⟩ = some d
    unfold decodeDate rfcChars
    have hsplit := splitOnChar_three ' '
      (natToChars d.day) ((monthName d.month).data) (padLeft 4 (natToChars d.year))
      (fun x hx => isDigit_ne_space (all_isDigit_natToChars _ x hx))
      (month_no_space d.month (by omega) hm1)
      (fun x hx => isDigit_ne_space (all_isDigit_padLeft _ _ (all_isDigit_natToChars _) x hx))
    simp only [hsplit, charsToNat?_natToChars, charsToNat?_padLeft,
      month_roundtrip d.month (by omega) hm1]

/-! ## Lemmas: metadata validation -/

lemma monthTable_range : ∀ p ∈ monthTable, 1 ≤ p.2 ∧ p.2 ≤ 12 := by decide

lemma monthNum?_range {cs : List Char} {m : Nat} (h : monthNum? cs = some m) :
    1 ≤ m ∧ m ≤ 12 := by
  unfold monthNum? at h
  cases hf : monthTable.find? (fun p => p.1 == cs) with
  | none => rw [hf] at h; exact Option.noConfusion h
  | some p =>
    rw [hf] at h
    injection h with h
    subst h
    exact monthTable_range p (List.mem_of_find?_eq_some hf)

lemma parseDate_valid {s : String} {d : Date} (h : parseDate s = some d) :
    d.Valid := by
  unfold parseDate at h
  split at h
  case _ mm dd yy _ =>
    split at h
    case _ month day year hm _ _ =>
      split at h
      case isTrue hday =>
        obtain ⟨hm1, hm2⟩ := monthNum?_range hm
        injection h with h
        subst h
        exact ⟨hm1, hm2, hday.1, hday.2⟩
      case isFalse => exact absurd h (by simp)
    case _ => exact absurd h (by simp)
  case _ => exact absurd h (by simp)

lemma parseArticle_ok {doc : RawDoc} {a : Article} (h : parseArticle doc = .ok a) :
    doc.getField "slug" = some a.slug ∧ a.slug ≠ "" ∧ a.date.Valid := by
  unfold parseArticle at h
  split at h
  case _ slug dateStr author nm excerpt keywords hslug _ _ _ _ _ =>
    split at h
    case isTrue => exact absurd h (by simp)
    case isFalse hne =>
      split at h
      case _ date hdate =>
        injection h with h
        subst h
        exact ⟨hslug, hne, parseDate_valid hdate⟩
      case _ => exact absurd h (by simp)
  all_goals exact absurd h (by simp)

lemma buildArticles_ok : ∀ (ds : List RawDoc) (seen : List String) (arts : List Article),
    buildArticles ds seen = .ok arts →
      List.Forall₂ (fun d a => parseArticle d = .ok a) ds arts ∧
      (arts.map (fun a => a.slug)).Nodup ∧
      ∀ a ∈ arts, a.slug ∉ seen := by
  intro ds
  induction ds with
  | nil =>
    intro seen arts h
    unfold buildArticles at h
    injection h with h
    subst h
    exact ⟨List.Forall₂.nil, List.nodup_nil, by simp⟩
  | cons d ds ih =>
    intro seen arts h
    unfold buildArticles at h
    split at h
    case _ => exact absurd h (by simp)
    case _ a hpa =>
      split at h
      case isTrue => exact absurd h (by simp)
      case isFalse hnot =>
        split at h
        case _ => exact absurd h (by simp)
        case _ rest hrest =>
          injection h with h
          subst h
          obtain ⟨hall, hnodup, hseen⟩ := ih (a.slug :: seen) rest hrest
          refine ⟨List.Forall₂.cons hpa hall, ?_, ?_⟩
          · rw [List.map_cons, List.nodup_cons]
            refine ⟨fun hmem => ?_, hnodup⟩
            obtain ⟨b, hb, hbs⟩ := List.mem_map.1 hmem
            exact hseen b hb (hbs ▸ List.mem_cons_self _ _)
          · intro x hx
            rcases List.mem_cons.1 hx with rfl | hx
            · exact hnot
            · exact fun hmem => hseen x hx (List.mem_cons_of_mem _ hmem)

lemma buildRegistry_ok {docs : List RawDoc} {reg : Registry}
    (h : buildRegistry docs = .ok reg) :
    ∃ arts, buildArticles docs [] = .ok arts ∧ reg = ⟨sortArticles arts⟩ := by
  unfold buildRegistry at h
  split at h
  case _ => exact absurd h (by simp)
  case _ arts harts =>
    injection h with h
    exact ⟨arts, harts, h.symm⟩

/-! ## Lemmas: the stable date-descending sort -/

lemma filter_orderedInsert (a : Article) (l : List Article) (k : Nat) :
    (List.orderedInsert dateGe a l).filter (fun x => x.date.key == k) =
      if a.date.key = k then a :: l.filter (fun x => x.date.key == k)
      else l.filter (fun x => x.date.key == k) := by
  induction l with
  | nil =>
    by_cases h : a.date.key = k <;>
      simp [List.orderedInsert, List.filter_cons, h]
  | cons b l ih =>
    by_cases hr : dateGe a b
    · by_cases h : a.date.key = k <;>
        simp [List.orderedInsert, if_pos hr, List.filter_cons, h]
    · have hlt : a.date.key < b.date.key := Nat.lt_of_not_le hr
      have hbne : b.date.key ≠ a.date.key := by omega
      by_cases hak : a.date.key = k
      · have hbk : b.date.key ≠ k := fun e => hbne (e.trans hak.symm)
        simp [List.orderedInsert, if_neg hr, List.filter_cons, ih, hak, hbk]
      · by_cases hbk : b.date.key = k <;>
          simp [List.orderedInsert, if_neg hr, List.filter_cons, ih, hak, hbk]

lemma filter_sortArticles (l : List Article) (k : Nat) :
    (sortArticles l).filter (fun x => x.date.key == k) =
      l.filter (fun x => x.date.key == k) := by
  induction l with
  | nil => rfl
  | cons a l ih =>
    show (List.orderedInsert dateGe a (sortArticles l)).filter _ = _
    rw [filter_orderedInsert]
    by_cases h : a.date.key = k <;> simp [List.filter_cons, h, ih]

lemma sortArticles_sorted (l : List Article) :
    (sortArticles l).Pairwise dateGe :=
  List.sorted_insertionSort dateGe l

lemma sortArticles_perm (l : List Article) : List.Perm (sortArticles l) l :=
  List.perm_insertionSort dateGe l

/-- Any list of feed items built from valid-dated articles parses back to
the slug/date pairs of those articles, in order. -/
lemma parseFeed_map (fmt : FeedFormat) :
    ∀ l : List Article, (∀ a ∈ l, a.date.Valid) →
      (l.map (articleToItem fmt)).mapM
          (fun it => (decodeDate fmt it.pubDate).map (fun d => (it.guid, d))) =
        some (l.map (fun a => (a.slug, a.date))) := by
  intro l
  induction l with
  | nil => intro _; rfl
  | cons a l ih =>
    intro h
    have ha : a.date.Valid := h a (List.mem_cons_self a l)
    simp only [List.map_cons, List.mapM_cons, articleToItem]
    rw [decodeDate_encodeDate fmt a.date ha,
      ih (fun b hb => h b (List.mem_cons_of_mem a hb))]
    rfl

/-! ## The claims -/

/-- C1: every registry built by `buildRegistry` is sorted by date
descending (every adjacent — indeed every — pair is non-increasing in
date), the sort is stable (for every date key, the articles carrying that
key appear in discovery order, so the output is deterministic), and for
the repository's two articles the 2023 article is listed before the 2019
one. -/
theorem C1_registry_sorted_stable (docs : List RawDoc) (reg : Registry)
    (h : buildRegistry docs = .ok reg) :
    reg.articles.Pairwise dateGe ∧
    (∃ arts, buildArticles docs [] = Except.ok arts ∧
      reg.articles = sortArticles arts ∧
      ∀ k, reg.articles.filter (fun a => a.date.key == k) =
        arts.filter (fun a => a.date.key == k)) ∧
    (buildRegistry nullptDocs).toOption.map
        (fun r => r.listAll.map (fun a => a.slug)) =
      some ["devirtualizing-nike-vm-2",
        "tackling-javascript-client-side-security-pt-1"] := by
  obtain ⟨arts, harts, rfl⟩ := buildRegistry_ok h
  exact ⟨sortArticles_sorted arts,
    ⟨arts, harts, rfl, fun k => filter_sortArticles arts k⟩, by decide⟩

/-- C1 witness: the theorem applied to the repository's own content set. -/
theorem C1_witness :
    nullptRegistry.articles.Pairwise dateGe ∧
    (∃ arts, buildArticles nullptDocs [] = Except.ok arts ∧
      nullptRegistry.articles = sortArticles arts ∧
      ∀ k, nullptRegistry.articles.filter (fun a => a.date.key == k) =
        arts.filter (fun a => a.date.key == k)) ∧
    (buildRegistry nullptDocs).toOption.map
        (fun r => r.listAll.map (fun a => a.slug)) =
      some ["devirtualizing-nike-vm-2",
        "tackling-javascript-client-side-security-pt-1"] :=
  C1_registry_sorted_stable nullptDocs nullptRegistry (by rfl)

/-- C2: for every registry and every format, the feed's item sequence has
the same length as the registry's article sequence, and the item at every
index is exactly the feed-item rendering of the article at that index. -/
theorem C2_feed_order_mirrors_registry (reg : Registry) (fmt : FeedFormat) :
    (generateFeed reg fmt).items.length = reg.articles.length ∧
    ∀ i : Nat, (generateFeed reg fmt).items[i]? =
      (reg.articles[i]?).map (articleToItem fmt) := by
  constructor
  · simp [generateFeed]
  · intro i
    simp [generateFeed, List.getElem?_map]

/-- C3: a registry returned by `buildRegistry` has pairwise distinct
slugs, and a content set in which two documents carry the same slug field
makes `buildRegistry` return an error (hence no registry at all). -/
theorem C3_slug_uniqueness (docs : List RawDoc) (reg : Registry)
    (i j : Nat) (s : String) :
    (buildRegistry docs = .ok reg →
      reg.articles.Pairwise (fun a b => a.slug ≠ b.slug)) ∧
    (i < j → j < docs.length →
      docs[i]?.bind (fun d => d.getField "slug") = some s →
      docs[j]?.bind (fun d => d.getField "slug") = some s →
      ∃ e, buildRegistry docs = .error e) := by
  constructor
  · intro h
    obtain ⟨arts, harts, rfl⟩ := buildRegistry_ok h
    obtain ⟨-, hnodup, -⟩ := buildArticles_ok docs [] arts harts
    have hpair : arts.Pairwise (fun a b => a.slug ≠ b.slug) :=
      List.pairwise_map.1 hnodup
    exact ((sortArticles_perm arts).pairwise_iff
      (fun hxy => Ne.symm hxy)).2 hpair
  · intro hij hj hsi hsj
    cases hres : buildRegistry docs with
    | error e => exact ⟨e, rfl⟩
    | ok reg2 =>
      exfalso
      obtain ⟨arts, harts, -⟩ := buildRegistry_ok hres
      obtain ⟨hall, hnodup, -⟩ := buildArticles_ok docs [] arts harts
      obtain ⟨hlen, hget⟩ := List.forall₂_iff_get.1 hall
      have hi : i < docs.length := Nat.lt_trans hij hj
      have hi2 : i < arts.length := hlen ▸ hi
      have hj2 : j < arts.length := hlen ▸ hj
      rw [List.getElem?_eq_getElem hi] at hsi
      rw [List.getElem?_eq_getElem hj] at hsj
      simp only [Option.some_bind] at hsi hsj
      have hpi := hget i hi hi2
      have hpj := hget j hj hj2
      have hsi2 := (parseArticle_ok hpi).1
      have hsj2 := (parseArticle_ok hpj).1
      have hslug_i : (arts.get ⟨i, hi2⟩).slug = s := by
        have : docs[i] = docs.get ⟨i, hi⟩ := rfl
        rw [this, hsi2] at hsi
        exact Option.some.inj hsi
      have hslug_j : (arts.get ⟨j, hj2⟩).slug = s := by
        have : docs[j] = docs.get ⟨j, hj⟩ := rfl
        rw [this, hsj2] at hsj
        exact Option.some.inj hsj
      have hinj := List.nodup_iff_injective_get.1 hnodup
      have hml : (arts.map (fun a => a.slug)).length = arts.length :=
        List.length_map arts _
      have heq : (arts.map (fun a => a.slug)).get ⟨i, hml ▸ hi2⟩ =
          (arts.map (fun a => a.slug)).get ⟨j, hml ▸ hj2⟩ := by
        rw [List.get_map, List.get_map]
        show (arts.get _).slug = (arts.get _).slug
        rw [hslug_i, hslug_j]
      have := hinj heq
      have : i = j := congrArg Fin.val this
      omega

/-- C3 witness: the repository's registry has distinct slugs, and the
duplicate-slug content set fails to build. -/
theorem C3_witness :
    nullptRegistry.articles.Pairwise (fun a b => a.slug ≠ b.slug) ∧
    ∃ e, buildRegistry dupDocs = .error e :=
  ⟨(C3_slug_uniqueness nullptDocs nullptRegistry 0 1 "a").1 (by rfl),
   (C3_slug_uniqueness dupDocs (Registry.mk []) 0 1 "a").2
     (by decide) (by decide) (by rfl) (by rfl)⟩

/-- C5: the registry built from a valid content set has exactly one
article per source document; the repository's two documents give a
registry of two articles. -/
theorem C5_registry_length (docs : List RawDoc) (reg : Registry)
    (h : buildRegistry docs = .ok reg) :
    reg.articles.length = docs.length ∧
    (buildRegistry nullptDocs).toOption.map (fun r => r.articles.length) =
      some 2 := by
  obtain ⟨arts, harts, rfl⟩ := buildRegistry_ok h
  obtain ⟨hall, -, -⟩ := buildArticles_ok docs [] arts harts
  refine ⟨?_, by decide⟩
  show (sortArticles arts).length = docs.length
  rw [(sortArticles_perm arts).length_eq, hall.length_eq]

/-- C5 witness: the theorem applied to the repository's own content set. -/
theorem C5_witness :
    nullptRegistry.articles.length = nullptDocs.length ∧
    (buildRegistry nullptDocs).toOption.map (fun r => r.articles.length) =
      some 2 :=
  C5_registry_length nullptDocs nullptRegistry (by rfl)

/-- C6: for the empty registry, every format generator returns normally
(the generator is a total function) with a structurally valid, zero-item
document. -/
theorem C6_empty_registry_feed (fmt : FeedFormat) :
    (generateFeed (Registry.mk []) fmt).items = [] ∧
    structurallyValid fmt (generateFeed (Registry.mk []) fmt) = true := by
  cases fmt <;> exact ⟨rfl, rfl⟩

/-- C7: on the spec's three-article example content set, `listAll` of the
built registry is exactly a (2023-01-12), c (2023-01-01), b
(2019-02-18). -/
theorem C7_three_article_example :
    (buildRegistry exampleDocs).toOption.map
        (fun r => r.listAll.map (fun a => (a.slug, a.date))) =
      some [("a", Date.mk 2023 1 12), ("c", Date.mk 2023 1 1),
        ("b", Date.mk 2019 2 18)] := by
  decide

/-- C8: for every valid registry and every format, parsing the generated
feed recovers exactly the registry's slug/date pairs, position by
position (hence the same number of items). -/
theorem C8_feed_roundtrip (reg : Registry) (fmt : FeedFormat)
    (hv : reg.Valid) :
    parseFeed fmt (generateFeed reg fmt) =
      some (reg.articles.map (fun a => (a.slug, a.date))) := by
  show (reg.articles.map (articleToItem fmt)).mapM _ = _
  exact parseFeed_map fmt reg.articles hv

/-- C8 witness: the round trip on the three-article example registry in
RSS format. -/
theorem C8_witness :
    parseFeed FeedFormat.rss (generateFeed exampleRegistry FeedFormat.rss) =
      some (exampleRegistry.articles.map (fun a => (a.slug, a.date))) :=
  C8_feed_roundtrip exampleRegistry FeedFormat.rss (by decide)

/-- C4: the redirect table maps `/feed.json`, `/feed.atom`, `/feed.rss`
to `/api/feed.json`, `/api/feed.atom`, `/api/feed.rss` respectively, each
marked permanent. -/
theorem C4_feed_redirects :
    redirects.find? (fun r => r.source == "/feed.json") =
      some (Redirect.mk "/feed.json" "/api/feed.json" true) ∧
    redirects.find? (fun r => r.source == "/feed.atom") =
      some (Redirect.mk "/feed.atom" "/api/feed.atom" true) ∧
    redirects.find? (fun r => r.source == "/feed.rss") =
      some (Redirect.mk "/feed.rss" "/api/feed.rss" true) := by
  exact ⟨by decide, by decide, by decide⟩

/-- An entry's destination points at the legacy host old.nullpt.rs. -/
def destOld (r : Redirect) : Bool :=
  "https://old.nullpt.rs".data.isPrefixOf r.destination.data

/-- C9: the seven redirect sources are pairwise distinct; the four
entries pointing at old.nullpt.rs are all non-permanent, and the
permanent entries are exactly the three feed redirects. -/
theorem C9_redirect_table_shape :
    (redirects.map (fun r => r.source)).Nodup ∧
    (redirects.filter destOld).length = 4 ∧
    (redirects.filter destOld).all (fun r => r.permanent == false) = true ∧
    (redirects.filter (fun r => r.permanent)).map (fun r => r.source) =
      ["/feed.json", "/feed.atom", "/feed.rss"] := by
  decide

/-- C10: both article documents carry all six required metadata fields,
with non-empty slugs and dates that parse to valid timestamps, and the
build of the repository's content set succeeds. -/
theorem C10_repository_documents_valid :
    (["slug", "date", "author", "name", "excerpt", "keywords"].all
      (fun k => (nikeDoc.getField k).isSome)) = true ∧
    (["slug", "date", "author", "name", "excerpt", "keywords"].all
      (fun k => (tacklingDoc.getField k).isSome)) = true ∧
    nikeDoc.getField "slug" = some "devirtualizing-nike-vm-2" ∧
    tacklingDoc.getField "slug" =
      some "tackling-javascript-client-side-security-pt-1" ∧
    (parseDate "Jan 12 2023").isSome = true ∧
    (parseDate "Feb 18 2019").isSome = true ∧
    (buildRegistry nullptDocs).isOk = true := by
  refine ⟨by decide, by decide, by rfl, by rfl, by rfl, by rfl, by rfl⟩

end Nullpt
